import Mathlib

/-!
Verification development for the option-critic implementation in
src/option_critic.py.  The numeric pipeline of the two update procedures
(`critic_loss`, `actor_loss`), the exploration schedule
(`OptionCritic.epsilon`), and the intra-option action distribution
(`OptionCritic.get_action`) are embedded shallowly: batched tensor
expressions become per-transition rational/real arithmetic, autograd
detachment is modelled with forward-mode dual numbers, and the ambient
random stream is threaded explicitly.
-/

namespace OptionCritic

/-! ## Bootstrap targets (critic_loss lines 126-130, actor_loss lines 157-161)

In the Python source the target is written over three continuation lines:

  y = rewards + masks * args.gamma * \
      (1 - next_options_term_prob) * next_Q_prime[batch_idx, options] + \
           next_options_term_prob  * next_Q_prime.max(dim=-1)[0]

Python operator precedence groups this as
rewards + (masks * gamma * (1 - p) * qOpt) + (p * qMax): the
`masks * gamma` factor multiplies only the first product, and the
`p * qMax` summand is added unscaled.  The embedding reproduces exactly
that grouping.  `masks` is `1 - dones` (line 104).
-/

/-- Per-transition bootstrap target exactly as `critic_loss` computes it
(lines 126-128), with Python's operator precedence: the mask and the
discount multiply only the continuation term, not the termination term. -/
def criticTarget (gamma reward done next_term_prob qOpt qMax : ℚ) : ℚ :=
  reward + (1 - done) * gamma * (1 - next_term_prob) * qOpt + next_term_prob * qMax

/-- Per-transition bootstrap target exactly as `actor_loss` computes it
(lines 157-159); textually the same grouping as in `critic_loss`, with
`(1 - done)` written inline instead of through the `masks` tensor. -/
def actorTarget (gamma reward done next_term_prob qOpt qMax : ℚ) : ℚ :=
  reward + (1 - done) * gamma * (1 - next_term_prob) * qOpt + next_term_prob * qMax

/-- Modelled from the spec: the bootstrap target as the specification
states it in section 4.7 step 4, with the `(1-done) * gamma` factor
multiplying the entire bracketed mixture of the target network's option
value and its maximum.  Kept separate from `criticTarget` (which follows
the source) so the two can be compared. -/
def criticTargetSpec (gamma reward done next_term_prob qOpt qMax : ℚ) : ℚ :=
  reward + (1 - done) * gamma * ((1 - next_term_prob) * qOpt + next_term_prob * qMax)

/-! ## Clipped TD cost (critic_loss lines 133-138) -/

/-- Line 136: `quadratic_part = torch.min(td_err.abs(), zeros.add(clip_delta))`. -/
def quadraticPart (clip_delta td_err : ℚ) : ℚ :=
  min |td_err| clip_delta

/-- Line 137: `td_cost = 0.5 * quadratic_part.pow(2) + clip_delta * (abs(td_err) - quadratic_part)`,
the per-transition contribution before the batch sum. -/
def tdCost (clip_delta td_err : ℚ) : ℚ :=
  (1 / 2) * (quadraticPart clip_delta td_err) ^ 2
    + clip_delta * (|td_err| - quadraticPart clip_delta td_err)

/-- Lines 133-138 over a batch: the TD error of each transition is
`y - Q[batch_idx, options]` and the batch loss is the sum (line 138:
`td_cost.sum()`), not the mean.  Each batch entry is the pair
(bootstrap target y, predicted Q of the chosen option). -/
def criticLossSum (clip_delta : ℚ) (batch : List (ℚ × ℚ)) : ℚ :=
  (batch.map fun p => tdCost clip_delta (p.1 - p.2)).sum

/-! ## Actor loss (actor_loss lines 151-165)

`Q` and `next_Q_prime` are the detached value rows `model.get_Q(state)`
and `model_prime.get_Q(next_state_prime)` (lines 154-155), indexed by
option; `.max(dim=-1)[0]` on a row of `n+1` options is the finite
maximum.  `option_term_prob` is `model.get_terminations(state)[:, option]`
(line 151) and `next_option_term_prob` its detached next-state analogue
(line 152). -/

/-- Maximum of a row of option values, as `.max(dim=-1)[0]` computes it. -/
def vecMax {n : ℕ} (Q : Fin (n + 1) → ℚ) : ℚ :=
  Finset.univ.sup' Finset.univ_nonempty Q

/-- Line 163: `termination_loss = option_term_prob * (Q[option] - Q.max(dim=-1)[0] + args.termination_reg)`. -/
def terminationLoss {n : ℕ} (termination_reg option_term_prob : ℚ)
    (Q : Fin (n + 1) → ℚ) (option : Fin (n + 1)) : ℚ :=
  option_term_prob * (Q option - vecMax Q + termination_reg)

/-- Line 164: `policy_loss = (-logp * (y - Q[option])).sum() - args.entropy_reg * entropy`;
for the single-transition call the sum over a scalar is the scalar itself. -/
def policyLoss (entropy_reg logp entropy y qOpt : ℚ) : ℚ :=
  -logp * (y - qOpt) - entropy_reg * entropy

/-- Lines 157-165: the whole scalar value returned by one `actor_loss`
call, with the bootstrap target `y` computed as on lines 157-161
(`actorTarget`) from the detached target-network row `next_Q_prime`. -/
def actorLossTotal {n : ℕ} (gamma termination_reg entropy_reg
    reward done option_term_prob next_option_term_prob logp entropy : ℚ)
    (Q next_Q_prime : Fin (n + 1) → ℚ) (option : Fin (n + 1)) : ℚ :=
  let y := actorTarget gamma reward done next_option_term_prob
    (next_Q_prime option) (vecMax next_Q_prime)
  terminationLoss termination_reg option_term_prob Q option
    + policyLoss entropy_reg logp entropy y (Q option)

/-- Lines 154-155 followed by `Q[option]` (lines 158 and 163): the
value row returned by `get_Q` has shape `(1, num_options)`, and
`.squeeze()` drops every size-1 dimension.  With a single option the
result is a 0-dimensional tensor and integer indexing raises
IndexError (`none`); with `n + 1 ≥ 2` options the row survives as a
vector and indexing selects the entry. -/
def squeezedIndex {n : ℕ} (Q : Fin (n + 1) → ℚ) (option : Fin (n + 1)) : Option ℚ :=
  if n = 0 then none else some (Q option)

/-- Lines 154-165 with the fallible indexing of the squeezed value
rows made explicit, in the source's evaluation order: the target `y`
indexes `next_Q_prime[option]` first (line 158), then the loss indexes
`Q[option]` (line 163); either IndexError aborts the call with no
returned loss. -/
def actorLossRun {n : ℕ} (gamma termination_reg entropy_reg
    reward done option_term_prob next_option_term_prob logp entropy : ℚ)
    (Q next_Q_prime : Fin (n + 1) → ℚ) (option : Fin (n + 1)) : Option ℚ :=
  match squeezedIndex next_Q_prime option with
  | none => none
  | some nqo =>
    let y := actorTarget gamma reward done next_option_term_prob nqo
      (vecMax next_Q_prime)
    match squeezedIndex Q option with
    | none => none
    | some qo =>
      some (option_term_prob * (qo - vecMax Q + termination_reg)
        + policyLoss entropy_reg logp entropy y qo)

/-! ## Forward-mode autograd model (detachment, critic_loss lines 112-142)

A `Dual` carries a value together with its derivative along one fixed
perturbation direction of the parameters.  `detach` models `.detach()`:
it keeps the value and severs the derivative.  Differentiating the loss
along a direction that perturbs only the target network's parameters or
the termination heads seeds nonzero tangents exactly on the
target-derived and termination-derived inputs, and zero tangent on the
live Q-values. -/

structure Dual where
  val : ℚ
  tan : ℚ
deriving DecidableEq, Repr

def Dual.const (c : ℚ) : Dual := ⟨c, 0⟩

def Dual.detach (a : Dual) : Dual := ⟨a.val, 0⟩

instance : Add Dual := ⟨fun a b => ⟨a.val + b.val, a.tan + b.tan⟩⟩

instance : Sub Dual := ⟨fun a b => ⟨a.val - b.val, a.tan - b.tan⟩⟩

instance : Mul Dual := ⟨fun a b => ⟨a.val * b.val, a.val * b.tan + a.tan * b.val⟩⟩

/-- Derivative of `torch.abs`: sign of the value scales the tangent
(zero at the origin, matching the subgradient torch uses). -/
def Dual.dabs (a : Dual) : Dual :=
  ⟨|a.val|, (if a.val < 0 then -1 else if a.val = 0 then 0 else 1) * a.tan⟩

/-- Elementwise `torch.min`: the branch with the smaller value carries
both the value and the tangent. -/
def Dual.dmin (a b : Dual) : Dual :=
  if a.val ≤ b.val then a else b

/-- One transition of the critic batch, with every network-derived
quantity as a dual number.  `reward` and `done` come from the replay
buffer and are parameter-free constants. -/
structure DualTransition where
  reward : ℚ
  done : ℚ
  termProb : Dual
  nextTermProb : Dual
  qOpt : Dual
  nextQprimeOpt : Dual
  nextQprimeMax : Dual

/-- Lines 112-137 for one transition on dual numbers: the next-state
termination probability is detached where it is produced (line 114), the
bootstrap target `y` is detached after being formed (line 130), and the
clipped cost of line 137 is built from the TD error of line 133. -/
def dualTdCost (gamma clip_delta : ℚ) (t : DualTransition) : Dual :=
  let next_term := Dual.detach t.nextTermProb
  let y := Dual.const t.reward
      + Dual.const (1 - t.done) * Dual.const gamma
        * (Dual.const 1 - next_term) * t.nextQprimeOpt
      + next_term * t.nextQprimeMax
  let yd := Dual.detach y
  let td_err := yd - t.qOpt
  let qp := Dual.dmin (Dual.dabs td_err) (Dual.const clip_delta)
  Dual.const (1 / 2) * qp * qp
    + Dual.const clip_delta * (Dual.dabs td_err - qp)

/-- Line 138: the batch loss is the sum of the per-transition costs. -/
def dualCriticLoss (gamma clip_delta : ℚ) (batch : List DualTransition) : Dual :=
  (batch.map (dualTdCost gamma clip_delta)).foldr (· + ·) (Dual.const 0)

/-- One gradient-descent parameter update, as `optim.step()` applies it
to each parameter it owns. -/
def sgdStep (theta lr grad : ℚ) : ℚ :=
  theta - lr * grad

/-! ## Explicit random stream (critic_loss lines 117-118)

Ambient randomness is threaded as a stream `rng : ℕ → ℚ` with a read
position.  Constructing a `Bernoulli` distribution object is pure;
only `.sample()` consumes stream entries. -/

/-- One transition of the critic batch at value level. -/
structure Transition where
  reward : ℚ
  done : ℚ
  termProb : ℚ
  nextTermProb : ℚ
  qOpt : ℚ
  nextQprimeOpt : ℚ
  nextQprimeMax : ℚ

/-- A Bernoulli distribution object over a batch of probabilities, as
`Bernoulli(options_term_prob)` constructs one on line 118. -/
structure BernoulliBatch where
  probs : List ℚ

/-- Sampling a Bernoulli batch: one stream entry per element is
consumed and the read position advances.  `critic_loss` never calls
this on the object it builds. -/
def BernoulliBatch.sample (d : BernoulliBatch) (rng : ℕ → ℚ) (pos : ℕ) :
    List ℚ × ℕ :=
  (d.probs.enum.map fun pq => if rng (pos + pq.1) < pq.2 then 1 else 0,
   pos + d.probs.length)

/-- Lines 98-144 at value level with the random stream threaded
through: the termination Bernoulli of lines 117-118 is constructed and
never sampled, the target of lines 126-130 is `criticTarget`, and the
returned scalar is the summed clipped cost of lines 133-138.  The
result pairs the loss with the stream position after the call. -/
def criticLossRun (gamma clip_delta : ℚ) (batch : List Transition)
    (_rng : ℕ → ℚ) (pos : ℕ) : ℚ × ℕ :=
  let _termination_sample : BernoulliBatch := ⟨batch.map Transition.termProb⟩
  let loss := criticLossSum clip_delta (batch.map fun t =>
    (criticTarget gamma t.reward t.done t.nextTermProb t.nextQprimeOpt t.nextQprimeMax,
     t.qOpt))
  (loss, pos)

/-! ## Exploration schedule (OptionCritic.epsilon, lines 88-95) -/

/-- The scalar fields of the model that the `epsilon` property reads
(lines 29-33, 27). -/
structure EpsConfig where
  eps_start : ℝ
  eps_min : ℝ
  eps_decay : ℝ
  eps_test : ℝ
  testing : Bool

/-- Lines 88-95: one read of the `epsilon` property, returning the rate
and the step counter after the read.  In training mode
(`not self.testing`) the rate is computed from the pre-read counter and
the counter then increments; in evaluation mode the rate is `eps_test`
and the counter is untouched. -/
noncomputable def epsilonRead (cfg : EpsConfig) (num_steps : ℕ) : ℝ × ℕ :=
  if cfg.testing = false then
    (cfg.eps_min + (cfg.eps_start - cfg.eps_min)
       * Real.exp (-(num_steps : ℝ) / cfg.eps_decay),
     num_steps + 1)
  else
    (cfg.eps_test, num_steps)

/-- Step counter after `k` successive `epsilon` reads of a freshly
constructed model (`num_steps = 0`, line 33). -/
noncomputable def counterAfter (cfg : EpsConfig) : ℕ → ℕ
  | 0 => 0
  | k + 1 => (epsilonRead cfg (counterAfter cfg k)).2

/-- Value returned by the `(k+1)`-st `epsilon` read in a sequence of
reads starting from a fresh model. -/
noncomputable def nthReadValue (cfg : EpsConfig) (k : ℕ) : ℝ :=
  (epsilonRead cfg (counterAfter cfg k)).1

/-! ## Intra-option action distribution (get_action, lines 74-82) -/

/-- Line 75, affine part: `state @ self.options_W[option] + self.options_b[option]`
for one embedding row, giving one logit per action. -/
noncomputable def actionLogits {d no na : ℕ}
    (options_W : Fin no → Fin d → Fin na → ℝ)
    (options_b : Fin no → Fin na → ℝ)
    (state : Fin d → ℝ) (option : Fin no) : Fin na → ℝ :=
  fun a => (∑ j, state j * options_W option j a) + options_b option a

/-- Line 75: `.softmax(dim=-1)` over the action dimension. -/
noncomputable def softmax {m : ℕ} (x : Fin (m + 1) → ℝ) : Fin (m + 1) → ℝ :=
  fun a => Real.exp (x a) / ∑ b, Real.exp (x b)

/-- Line 80: entropy of the categorical distribution built on line 76. -/
noncomputable def entropyOf {m : ℕ} (p : Fin (m + 1) → ℝ) : ℝ :=
  -∑ a, p a * Real.log (p a)

/-- Line 49: `self.options_W = nn.Parameter(torch.zeros(num_options, 512, num_actions))`. -/
def initOptionsW (no d na : ℕ) : Fin no → Fin d → Fin na → ℝ :=
  fun _ _ _ => 0

/-- Line 50: `self.options_b = nn.Parameter(torch.zeros(num_options, num_actions))`. -/
def initOptionsB (no na : ℕ) : Fin no → Fin na → ℝ :=
  fun _ _ => 0

/-! ## Facts about the bootstrap target and the clipped loss -/

/-- C1: the claim states that the critic update forms the bootstrap
target as reward + (1-done) * gamma * [(1 - p) * Q_target[option] +
p * max(Q_target)], the (1-done)*gamma factor multiplying the entire
bracketed mixture.  The code does not: with gamma = 1/2, reward = 0,
done = 0, next-state termination probability 1, target option value 0
and target row maximum 1, the code's target (lines 126-128) evaluates
to 1 while the claimed bracketed formula evaluates to 1/2, because
Python precedence applies masks * gamma only to the continuation
summand and leaves the termination summand unscaled. -/
theorem C1_target_precedence :
    criticTarget (1/2) 0 0 1 0 1 = 1 ∧
    criticTargetSpec (1/2) 0 0 1 0 1 = 1/2 ∧
    criticTarget (1/2) 0 0 1 0 1 ≠ criticTargetSpec (1/2) 0 0 1 0 1 := by
  refine ⟨by norm_num [criticTarget], by norm_num [criticTargetSpec], ?_⟩
  norm_num [criticTarget, criticTargetSpec]

/-- C2: the claim states that a transition with done = 1 yields a
bootstrap target equal to its reward.  In both update procedures the
unmasked termination summand survives: with gamma = 1/2, reward = 0,
done = 1, next-state termination probability 1, target option value 0
and target row maximum 2, both targets evaluate to 2, not to the
reward 0. -/
theorem C2_done_transition_still_bootstraps :
    criticTarget (1/2) 0 1 1 0 2 = 2 ∧ actorTarget (1/2) 0 1 1 0 2 = 2 ∧
    criticTarget (1/2) 0 1 1 0 2 ≠ 0 := by
  refine ⟨by norm_num [criticTarget], by norm_num [actorTarget], ?_⟩
  norm_num [criticTarget]

/-- Per-transition cost is the exact quadratic branch below the
threshold. -/
lemma tdCost_of_le (clip_delta e : ℚ) (h : |e| ≤ clip_delta) :
    tdCost clip_delta e = (1/2) * e^2 := by
  have hq : quadraticPart clip_delta e = |e| := min_eq_left h
  simp [tdCost, hq, sq_abs]

/-- Per-transition cost is the exact linear branch above the
threshold. -/
lemma tdCost_of_gt (clip_delta e : ℚ) (h : clip_delta < |e|) :
    tdCost clip_delta e = clip_delta * (|e| - (1/2) * clip_delta) := by
  have hq : quadraticPart clip_delta e = clip_delta := min_eq_right h.le
  simp only [tdCost, hq]
  ring

/-- Per-transition cost is non-negative when the threshold is. -/
lemma tdCost_nonneg (clip_delta e : ℚ) (hcd : 0 ≤ clip_delta) :
    0 ≤ tdCost clip_delta e := by
  rcases le_or_lt |e| clip_delta with h | h
  · rw [tdCost_of_le _ _ h]; positivity
  · rw [tdCost_of_gt _ _ h]
    have habs : 0 ≤ |e| := abs_nonneg e
    nlinarith

/-- Per-transition cost vanishes only at a zero TD error. -/
lemma tdCost_eq_zero_iff (clip_delta e : ℚ) (hcd : 0 < clip_delta) :
    tdCost clip_delta e = 0 ↔ e = 0 := by
  constructor
  · intro h0
    rcases le_or_lt |e| clip_delta with h | h
    · rw [tdCost_of_le _ _ h] at h0
      have : e ^ 2 = 0 := by linarith
      exact pow_eq_zero_iff (by norm_num) |>.mp this
    · exfalso
      rw [tdCost_of_gt _ _ h] at h0
      nlinarith [abs_nonneg e]
  · rintro rfl
    rw [tdCost_of_le _ _ (by simpa using hcd.le)]
    ring

/-- A list of non-negative rationals with zero sum is all zeros. -/
lemma list_sum_zero_of_nonneg {l : List ℚ} (hp : ∀ x ∈ l, 0 ≤ x)
    (hs : l.sum = 0) : ∀ x ∈ l, x = 0 := by
  induction l with
  | nil => intro x hx; cases hx
  | cons a t ih =>
    have ha : 0 ≤ a := hp a (List.mem_cons_self a t)
    have ht : ∀ x ∈ t, 0 ≤ x := fun x hx => hp x (List.mem_cons_of_mem a hx)
    have hts : 0 ≤ t.sum := List.sum_nonneg ht
    have hsum : a + t.sum = 0 := by simpa using hs
    have ha0 : a = 0 := by linarith
    have hts0 : t.sum = 0 := by linarith
    intro x hx
    rcases List.mem_cons.mp hx with rfl | hx
    · exact ha0
    · exact ih ht hts0 x hx

/-- C3: below the threshold the cost contribution is 0.5 * e^2, above
it clip_delta * (|e| - 0.5 * clip_delta); the batch loss is the plain
sum of the contributions; it is non-negative and vanishes exactly when
every predicted Q equals its bootstrap target. -/
theorem C3_clipped_loss_shape (clip_delta : ℚ) (hcd : 0 < clip_delta)
    (batch : List (ℚ × ℚ)) :
    (∀ e : ℚ, |e| ≤ clip_delta → tdCost clip_delta e = (1/2) * e^2) ∧
    (∀ e : ℚ, clip_delta < |e| →
      tdCost clip_delta e = clip_delta * (|e| - (1/2) * clip_delta)) ∧
    criticLossSum clip_delta batch
      = (batch.map fun p => tdCost clip_delta (p.1 - p.2)).sum ∧
    0 ≤ criticLossSum clip_delta batch ∧
    (criticLossSum clip_delta batch = 0 ↔ ∀ p ∈ batch, p.2 = p.1) := by
  have hnn : ∀ x ∈ batch.map fun p => tdCost clip_delta (p.1 - p.2), (0 : ℚ) ≤ x := by
    intro x hx
    rcases List.mem_map.mp hx with ⟨q, _, rfl⟩
    exact tdCost_nonneg _ _ hcd.le
  refine ⟨fun e he => tdCost_of_le _ _ he, fun e he => tdCost_of_gt _ _ he, rfl, ?_, ?_⟩
  · exact List.sum_nonneg hnn
  · constructor
    · intro h0 p hp
      rw [criticLossSum] at h0
      have hall := list_sum_zero_of_nonneg hnn h0
      have hmem : tdCost clip_delta (p.1 - p.2)
          ∈ batch.map fun p => tdCost clip_delta (p.1 - p.2) :=
        List.mem_map.mpr ⟨p, hp, rfl⟩
      have := (tdCost_eq_zero_iff clip_delta (p.1 - p.2) hcd).mp (hall _ hmem)
      linarith [sub_eq_zero.mp this]
    · intro hall
      have : (batch.map fun p => tdCost clip_delta (p.1 - p.2))
          = batch.map fun _ => (0 : ℚ) := by
        apply List.map_congr_left
        intro p hp
        have : p.1 - p.2 = 0 := by
          have := hall p hp; linarith
        rw [this, (tdCost_eq_zero_iff clip_delta 0 hcd).mpr rfl]
      rw [criticLossSum, this]
      simp

/-- Witness for C3 at clip_delta = 1 and a batch of one transition
whose prediction matches its target. -/
theorem C3_witness :
    (0 : ℚ) < 1 ∧ (criticLossSum 1 [(3, 3)] = 0 ↔
      ∀ p ∈ [((3 : ℚ), (3 : ℚ))], p.2 = p.1) :=
  ⟨by norm_num, (C3_clipped_loss_shape 1 (by norm_num) [(3, 3)]).2.2.2.2⟩

/-- C4: the claim asserts that with num_options = 1 the actor update
completes with termination loss term term_prob * termination_reg.  It
does not complete: `.squeeze()` on lines 154-155 reduces the (1, 1)
value rows to 0-dimensional tensors, the indexing
`next_Q_prime[option]` on line 158 raises IndexError, and `actor_loss`
returns no loss at all — here evaluated at a concrete single
transition.  The same call with two options runs to completion and
returns exactly the total loss of lines 163-165. -/
theorem C4_single_option_index_error :
    actorLossRun (1/2) (1/100) (1/100) 1 0 (1/2) (1/2) (1/3) (1/4)
      (fun _ : Fin 1 => 5) (fun _ : Fin 1 => 7) 0 = none ∧
    actorLossRun (1/2) (1/100) (1/100) 1 0 (1/2) (1/2) (1/3) (1/4)
      (fun _ : Fin 2 => 5) (fun _ : Fin 2 => 7) 0
      = some (actorLossTotal (1/2) (1/100) (1/100) 1 0 (1/2) (1/2) (1/3) (1/4)
          (fun _ : Fin 2 => 5) (fun _ : Fin 2 => 7) 0) :=
  ⟨rfl, rfl⟩

/-- C5: the actor loss returned for one transition is exactly the
termination term term_prob * (Q[option] - max(Q) + termination_reg)
plus the policy term -logp * (target - Q[option]) - entropy_reg *
entropy, with the target as the code computes it. -/
theorem C5_actor_loss_decomposition {n : ℕ} (gamma termination_reg entropy_reg
    reward done option_term_prob next_option_term_prob logp entropy : ℚ)
    (Q next_Q_prime : Fin (n + 1) → ℚ) (option : Fin (n + 1)) :
    actorLossTotal gamma termination_reg entropy_reg reward done
        option_term_prob next_option_term_prob logp entropy Q next_Q_prime option
      = option_term_prob * (Q option - vecMax Q + termination_reg)
        + (-logp * (actorTarget gamma reward done next_option_term_prob
              (next_Q_prime option) (vecMax next_Q_prime) - Q option)
           - entropy_reg * entropy) := rfl

/-! ## Facts about the exploration schedule -/

/-- C6: a training-mode read of epsilon returns
eps_min + (eps_start - eps_min) * exp(-num_steps / eps_decay) computed
from the pre-read counter and increments the counter by one; an
evaluation-mode read returns eps_test and leaves the counter unchanged;
the first training-mode read returns eps_start exactly. -/
theorem C6_epsilon_read (cfg : EpsConfig) (n : ℕ) :
    (cfg.testing = false →
      epsilonRead cfg n =
        (cfg.eps_min + (cfg.eps_start - cfg.eps_min)
           * Real.exp (-(n : ℝ) / cfg.eps_decay), n + 1)) ∧
    (cfg.testing = true → epsilonRead cfg n = (cfg.eps_test, n)) ∧
    (cfg.testing = false → (epsilonRead cfg 0).1 = cfg.eps_start) := by
  refine ⟨fun h => by simp [epsilonRead, h], fun h => by simp [epsilonRead, h],
    fun h => ?_⟩
  simp [epsilonRead, h]

/-- Witness for C6: a fresh training-mode model reads eps_start = 1,
and an evaluation-mode model reads eps_test = 1/20 without moving the
counter. -/
theorem C6_witness :
    (epsilonRead ⟨1, 1/10, 1000000, 1/20, false⟩ 0).1 = 1 ∧
    epsilonRead ⟨1, 1/10, 1000000, 1/20, true⟩ 7 = (1/20, 7) :=
  ⟨(C6_epsilon_read ⟨1, 1/10, 1000000, 1/20, false⟩ 0).2.2 rfl,
   (C6_epsilon_read ⟨1, 1/10, 1000000, 1/20, true⟩ 7).2.1 rfl⟩

/-- In training mode each read advances the counter by one, so after
`k` reads the counter is `k`. -/
lemma counterAfter_train (cfg : EpsConfig) (h : cfg.testing = false) :
    ∀ k, counterAfter cfg k = k := by
  intro k
  induction k with
  | zero => rfl
  | succ k ih => simp [counterAfter, epsilonRead, h, ih]

/-- Closed form of the `(k+1)`-st training-mode read. -/
lemma nthReadValue_train (cfg : EpsConfig) (h : cfg.testing = false) (k : ℕ) :
    nthReadValue cfg k
      = cfg.eps_min + (cfg.eps_start - cfg.eps_min)
          * Real.exp (-(k : ℝ) / cfg.eps_decay) := by
  rw [nthReadValue, counterAfter_train cfg h k]
  simp [epsilonRead, h]

/-- C7: with eps_min ≤ eps_start and eps_decay > 0, successive
training-mode reads are monotonically non-increasing and stay within
[eps_min, eps_start]; in test mode every read returns eps_test. -/
theorem C7_epsilon_monotone_bounded (cfg : EpsConfig) :
    (cfg.testing = false → cfg.eps_min ≤ cfg.eps_start → 0 < cfg.eps_decay →
      (∀ k, counterAfter cfg k = k) ∧
      (∀ k l : ℕ, k ≤ l → nthReadValue cfg l ≤ nthReadValue cfg k) ∧
      (∀ k, cfg.eps_min ≤ nthReadValue cfg k ∧
        nthReadValue cfg k ≤ cfg.eps_start)) ∧
    (cfg.testing = true → ∀ k, nthReadValue cfg k = cfg.eps_test) := by
  constructor
  · intro htrain hmin hdec
    have hsub : (0 : ℝ) ≤ cfg.eps_start - cfg.eps_min := sub_nonneg.mpr hmin
    refine ⟨counterAfter_train cfg htrain, ?_, ?_⟩
    · intro k l hkl
      rw [nthReadValue_train cfg htrain, nthReadValue_train cfg htrain]
      have hexp : Real.exp (-(l : ℝ) / cfg.eps_decay)
          ≤ Real.exp (-(k : ℝ) / cfg.eps_decay) := by
        apply Real.exp_le_exp.mpr
        have hneg : -(l : ℝ) ≤ -(k : ℝ) := neg_le_neg (Nat.cast_le.mpr hkl)
        exact div_le_div_of_nonneg_right hneg hdec.le
      nlinarith
    · intro k
      rw [nthReadValue_train cfg htrain]
      have hexp_pos : 0 < Real.exp (-(k : ℝ) / cfg.eps_decay) := Real.exp_pos _
      have hexp_le : Real.exp (-(k : ℝ) / cfg.eps_decay) ≤ 1 := by
        rw [Real.exp_le_one_iff]
        apply div_nonpos_of_nonpos_of_nonneg
        · simp
        · exact hdec.le
      constructor
      · nlinarith
      · nlinarith
  · intro htest k
    have hc : ∀ m, counterAfter cfg m = 0 := by
      intro m
      induction m with
      | zero => rfl
      | succ m ih => simp [counterAfter, epsilonRead, htest, ih]
    rw [nthReadValue, hc k]
    simp [epsilonRead, htest]

/-- Witness for C7: with eps_start = 1, eps_min = 1/10,
eps_decay = 1000000 the second training read is at most the first, and
a test-mode model always reads 1/20. -/
theorem C7_witness :
    nthReadValue ⟨1, 1/10, 1000000, 1/20, false⟩ 1
      ≤ nthReadValue ⟨1, 1/10, 1000000, 1/20, false⟩ 0 ∧
    nthReadValue ⟨1, 1/10, 1000000, 1/20, true⟩ 5 = 1/20 :=
  ⟨((C7_epsilon_monotone_bounded ⟨1, 1/10, 1000000, 1/20, false⟩).1 rfl
      (by norm_num) (by norm_num)).2.1 0 1 (by norm_num),
   (C7_epsilon_monotone_bounded ⟨1, 1/10, 1000000, 1/20, true⟩).2 rfl 5⟩

/-! ## Facts about detachment in the critic update -/

@[simp] lemma Dual.add_val (a b : Dual) : (a + b).val = a.val + b.val := rfl

@[simp] lemma Dual.add_tan (a b : Dual) : (a + b).tan = a.tan + b.tan := rfl

@[simp] lemma Dual.sub_val (a b : Dual) : (a - b).val = a.val - b.val := rfl

@[simp] lemma Dual.sub_tan (a b : Dual) : (a - b).tan = a.tan - b.tan := rfl

@[simp] lemma Dual.mul_val (a b : Dual) : (a * b).val = a.val * b.val := rfl

@[simp] lemma Dual.mul_tan (a b : Dual) :
    (a * b).tan = a.val * b.tan + a.tan * b.val := rfl

@[simp] lemma Dual.const_val (c : ℚ) : (Dual.const c).val = c := rfl

@[simp] lemma Dual.const_tan (c : ℚ) : (Dual.const c).tan = 0 := rfl

@[simp] lemma Dual.detach_val (a : Dual) : (Dual.detach a).val = a.val := rfl

@[simp] lemma Dual.detach_tan (a : Dual) : (Dual.detach a).tan = 0 := rfl

lemma Dual.dabs_tan_zero (a : Dual) (h : a.tan = 0) : (Dual.dabs a).tan = 0 := by
  simp [Dual.dabs, h]

lemma Dual.dmin_tan_zero (a b : Dual) (ha : a.tan = 0) (hb : b.tan = 0) :
    (Dual.dmin a b).tan = 0 := by
  rw [Dual.dmin]
  split <;> assumption

/-- A perturbation direction that leaves the live Q-values untouched
contributes no derivative to any per-transition cost: the detach on the
bootstrap target (line 130) and on the termination probabilities
(line 114) sever every path from the target network and the termination
heads into the loss. -/
lemma dualTdCost_tan_zero (gamma clip_delta : ℚ) (t : DualTransition)
    (h : t.qOpt.tan = 0) : (dualTdCost gamma clip_delta t).tan = 0 := by
  rw [dualTdCost]
  have habs : (Dual.dabs (Dual.detach (Dual.const t.reward
      + Dual.const (1 - t.done) * Dual.const gamma
        * (Dual.const 1 - Dual.detach t.nextTermProb) * t.nextQprimeOpt
      + Dual.detach t.nextTermProb * t.nextQprimeMax) - t.qOpt)).tan = 0 := by
    apply Dual.dabs_tan_zero
    simp [h]
  simp only [Dual.add_tan, Dual.mul_tan, Dual.sub_tan, Dual.const_tan,
    Dual.detach_tan]
  rw [Dual.dmin_tan_zero _ _ habs (Dual.const_tan _), habs]
  ring

/-- C8: along any perturbation direction of the parameters that leaves
the live Q-values unchanged — in particular any perturbation of the
target model's parameters or the termination heads — the critic loss
has derivative zero, so the gradient-descent step applied with that
gradient leaves every such parameter exactly where it was. -/
theorem C8_no_gradient_reaches_target (gamma clip_delta lr : ℚ)
    (batch : List DualTransition) (h : ∀ t ∈ batch, t.qOpt.tan = 0) :
    (dualCriticLoss gamma clip_delta batch).tan = 0 ∧
    ∀ theta : ℚ, sgdStep theta lr (dualCriticLoss gamma clip_delta batch).tan
      = theta := by
  have hmain : (dualCriticLoss gamma clip_delta batch).tan = 0 := by
    induction batch with
    | nil => rfl
    | cons a l ih =>
      have ha : (dualTdCost gamma clip_delta a).tan = 0 :=
        dualTdCost_tan_zero gamma clip_delta a (h a (List.mem_cons_self a l))
      have hl : (dualCriticLoss gamma clip_delta l).tan = 0 :=
        ih fun t ht => h t (List.mem_cons_of_mem a ht)
      have hstep : dualCriticLoss gamma clip_delta (a :: l)
          = dualTdCost gamma clip_delta a + dualCriticLoss gamma clip_delta l := rfl
      rw [hstep, Dual.add_tan, ha, hl, add_zero]
  exact ⟨hmain, fun theta => by rw [sgdStep, hmain]; ring⟩

/-- Witness for C8: one transition whose target-derived and
termination-derived inputs carry nonzero tangents while the live
Q-value carries none; the loss tangent is zero. -/
theorem C8_witness :
    (∀ t ∈ [(⟨1, 0, ⟨1/2, 3⟩, ⟨1/2, 5⟩, ⟨2, 0⟩, ⟨4, 7⟩, ⟨9, 11⟩⟩ : DualTransition)],
      t.qOpt.tan = 0) ∧
    (dualCriticLoss 1 1
      [⟨1, 0, ⟨1/2, 3⟩, ⟨1/2, 5⟩, ⟨2, 0⟩, ⟨4, 7⟩, ⟨9, 11⟩⟩]).tan = 0 :=
  ⟨by simp, (C8_no_gradient_reaches_target 1 1 1 _ (by simp)).1⟩

/-! ## Fresh-model action distribution -/

/-- C9: on a freshly constructed model the intra-option policy weight
tensor and bias tensor are all zeros (lines 49-50), so for every
embedding and every option the logits vanish, the softmax of line 75 is
exactly uniform over the num_actions = m+1 actions, and the entropy
returned by get_action is log(num_actions). -/
theorem C9_fresh_model_uniform {d no m : ℕ} (state : Fin d → ℝ)
    (option : Fin (no + 1)) :
    (∀ a, softmax (actionLogits (initOptionsW (no + 1) d (m + 1))
        (initOptionsB (no + 1) (m + 1)) state option) a = 1 / ((m : ℝ) + 1)) ∧
    entropyOf (softmax (actionLogits (initOptionsW (no + 1) d (m + 1))
        (initOptionsB (no + 1) (m + 1)) state option))
      = Real.log ((m : ℝ) + 1) := by
  have hm1 : ((m : ℝ) + 1) ≠ 0 := by positivity
  have hlog : actionLogits (initOptionsW (no + 1) d (m + 1))
      (initOptionsB (no + 1) (m + 1)) state option = fun _ => (0 : ℝ) := by
    funext a
    simp [actionLogits, initOptionsW, initOptionsB]
  have hsm : softmax (actionLogits (initOptionsW (no + 1) d (m + 1))
      (initOptionsB (no + 1) (m + 1)) state option)
      = fun _ => 1 / ((m : ℝ) + 1) := by
    rw [hlog]
    funext a
    simp [softmax, Real.exp_zero, Finset.sum_const, Finset.card_univ]
  refine ⟨fun a => by rw [hsm], ?_⟩
  rw [hsm, entropyOf]
  simp only [Finset.sum_const, Finset.card_univ, Fintype.card_fin, nsmul_eq_mul]
  rw [one_div, Real.log_inv]
  push_cast
  field_simp

/-! ## Determinism of the critic update -/

/-- C10: the scalar returned by the critic update does not depend on
the random stream, and the stream position is unchanged by the call:
the Bernoulli object built on line 118 is never sampled and nothing
else draws randomness, so two runs on identical inputs return identical
losses. -/
theorem C10_critic_loss_deterministic (gamma clip_delta : ℚ)
    (batch : List Transition) (rng1 rng2 : ℕ → ℚ) (pos : ℕ) :
    criticLossRun gamma clip_delta batch rng1 pos
      = criticLossRun gamma clip_delta batch rng2 pos ∧
    (criticLossRun gamma clip_delta batch rng1 pos).2 = pos :=
  ⟨rfl, rfl⟩

end OptionCritic
